import Mathlib

/-!
Shallow embedding of the `cell-ref` crate (`src/lib.rs`).

The crate wraps `core::cell::Cell<T>` in a newtype `Cell<T>` and offers
by-reference access methods: for `T: Copy`, `get`, `with`, `with_mut`
built on the standard cell's `get`/`set`; for `T: Default` (via the
sealed extension trait `CellExt`), vacate-and-restore `with`/`with_mut`
built on `take`/`set`, and `get` (for `T: Clone + Default`) defined as
`self.with(T::clone)`.

Embedding conventions:
- Interior mutability becomes explicit state passing: the cell's state
  is a value of the structure type `Cell T`; an operation that mutates
  the cell returns the new state.
- A caller-supplied closure `FnOnce(&T) -> R` (resp. `FnOnce(&mut T) -> R`)
  may capture the cell and re-enter it, and may panic.  It is therefore
  modelled as a function from the borrowed value and the cell state at
  the start of the closure to the cell state when the closure finishes
  (reflecting any reentrant `get`/`set`/`take` calls it made) together
  with `Except E` of its outcome: `Except.error e` models a panic with
  payload `e`, `Except.ok` carries the returned result (and, for the
  mutable variant, the final value of the borrowed `&mut T` location).
- The `Default` bound becomes an explicit `dflt : T` argument
  (`Default::default()` for the type), and the `Clone` bound an explicit
  `clone : T → T`.
-/

namespace CellRef

/-- Embeds `core::cell::Cell<T>` (aliased `StdCell` in the source): the standard
interior-mutability container, a single slot holding one `T`. -/
structure StdCell (T : Type) where
  value : T
deriving DecidableEq, Repr

/-- Embeds `StdCell::new(value)`. -/
def StdCell.new {T : Type} (v : T) : StdCell T :=
  ⟨v⟩

/-- Embeds `StdCell::get` for `T: Copy`: returns a copy of the held value. -/
def StdCell.get {T : Type} (c : StdCell T) : T :=
  c.value

/-- Embeds `StdCell::set(value)`: overwrites the held value. -/
def StdCell.set {T : Type} (_c : StdCell T) (v : T) : StdCell T :=
  ⟨v⟩

/-- Embeds `StdCell::replace(value)`: returns the old value, stores the new one. -/
def StdCell.replace {T : Type} (c : StdCell T) (v : T) : T × StdCell T :=
  (c.value, ⟨v⟩)

/-- Embeds `StdCell::take` for `T: Default`: `self.replace(Default::default())`,
with the type's default value passed explicitly as `dflt`. -/
def StdCell.take {T : Type} (dflt : T) (c : StdCell T) : T × StdCell T :=
  StdCell.replace c dflt

/-- Embeds `cell_ref::Cell<T>`: `pub struct Cell<T>(StdCell<T>)`. -/
structure Cell (T : Type) where
  inner : StdCell T
deriving DecidableEq, Repr

/-- Embeds `Cell::new(value)`: `Self(StdCell::new(value))`. -/
def Cell.new {T : Type} (v : T) : Cell T :=
  ⟨StdCell.new v⟩

/-- The `Deref` impl: `&self.0`. -/
def Cell.deref {T : Type} (c : Cell T) : StdCell T :=
  c.inner

/-- Embeds `impl From<T> for Cell<T>`: `Self::new(value)`. -/
def Cell.fromValue {T : Type} (v : T) : Cell T :=
  Cell.new v

/-- Embeds `impl From<StdCell<T>> for Cell<T>`: `Self(cell)`. -/
def Cell.fromStd {T : Type} (s : StdCell T) : Cell T :=
  ⟨s⟩

/-- Embeds `impl From<Cell<T>> for StdCell<T>`: `cell.0`. -/
def Cell.toStd {T : Type} (c : Cell T) : StdCell T :=
  c.inner

/-- Embeds `Cell::get` for `T: Copy`: `self.0.get()`. -/
def Cell.get {T : Type} (c : Cell T) : T :=
  (Cell.deref c).get

/-- Embeds `StdCell::set` reached through the `Deref` impl: `self.set(value)`. -/
def Cell.set {T : Type} (c : Cell T) (v : T) : Cell T :=
  ⟨StdCell.set (Cell.deref c) v⟩

/-- Embeds `StdCell::take` reached through the `Deref` impl: `self.take()`. -/
def Cell.take {T : Type} (dflt : T) (c : Cell T) : T × Cell T :=
  let p := StdCell.take dflt (Cell.deref c)
  (p.1, ⟨p.2⟩)

/-- Model of a closure `FnOnce(&T) -> R` that may capture the cell and
may panic: from the borrowed value and the cell state at entry to the
cell state at exit plus panic payload or result. -/
def RefClosure (T R E : Type) : Type :=
  T → Cell T → Cell T × Except E R

/-- Model of a closure `FnOnce(&mut T) -> R` that may capture the cell
and may panic: on normal exit it additionally yields the final value of
the borrowed `&mut T` location. -/
def MutClosure (T R E : Type) : Type :=
  T → Cell T → Cell T × Except E (R × T)

/-- A well-behaved read-only closure: never touches the cell, never
panics, returns `g` of the borrowed value. -/
def pureRef {T R E : Type} (g : T → R) : RefClosure T R E :=
  fun x s => (s, Except.ok (g x))

/-- A well-behaved mutating closure: never touches the cell, never
panics, rewrites the borrowed location to `(m x).2` and returns `(m x).1`. -/
def pureMut {T R E : Type} (m : T → R × T) : MutClosure T R E :=
  fun x s => (s, Except.ok (m x))

/-- A closure that panics (payload `p` of the borrowed value) without
touching the cell. -/
def panicRef {T R E : Type} (p : T → E) : RefClosure T R E :=
  fun x s => (s, Except.error (p x))

/-- A mutating closure that panics without touching the cell. -/
def panicMut {T R E : Type} (p : T → E) : MutClosure T R E :=
  fun x s => (s, Except.error (p x))

/-- Embeds `Cell::with` for `T: Copy`: `f(&self.get())`.  The method itself
never writes the slot; the final cell state is whatever the closure's
reentrant accesses (if any) left behind. -/
def Cell.with' {T R E : Type} (f : RefClosure T R E) (c : Cell T) :
    Cell T × Except E R :=
  f (Cell.get c) c

/-- Embeds `Cell::with_mut` for `T: Copy`:
`let mut value = self.get(); let result = f(&mut value);
self.set(value); result`.  On panic the `set` is skipped. -/
def Cell.with_mut {T R E : Type} (f : MutClosure T R E) (c : Cell T) :
    Cell T × Except E R :=
  let value := Cell.get c
  match f value c with
  | (c', Except.error e) => (c', Except.error e)
  | (c', Except.ok (r, value')) => (Cell.set c' value', Except.ok r)

/-- Embeds `CellExt::with` for `T: Default`:
`let value = self.take(); let result = f(&value); self.set(value);
result`.  On panic the `set` is skipped. -/
def CellExt.with' {T R E : Type} (dflt : T) (f : RefClosure T R E)
    (c : Cell T) : Cell T × Except E R :=
  let p := Cell.take dflt c
  match f p.1 p.2 with
  | (c', Except.error e) => (c', Except.error e)
  | (c', Except.ok r) => (Cell.set c' p.1, Except.ok r)

/-- Embeds `CellExt::with_mut` for `T: Default`:
`let mut value = self.take(); let result = f(&mut value);
self.set(value); result`.  On panic the `set` is skipped. -/
def CellExt.with_mut {T R E : Type} (dflt : T) (f : MutClosure T R E)
    (c : Cell T) : Cell T × Except E R :=
  let p := Cell.take dflt c
  match f p.1 p.2 with
  | (c', Except.error e) => (c', Except.error e)
  | (c', Except.ok (r, value')) => (Cell.set c' value', Except.ok r)

/-- Embeds `CellExt::get` for `T: Clone + Default`: `self.with(T::clone)`. -/
def CellExt.get {T E : Type} (dflt : T) (clone : T → T) (c : Cell T) :
    Cell T × Except E T :=
  CellExt.with' dflt (pureRef clone) c

/-- C1: For every default-constructible type `T`, initial value `v` and
well-behaved closure, `CellExt::with` and `CellExt::with_mut` take the
value out of the slot (leaving the default), invoke the closure with the
extracted value, write the (possibly mutated) value back, and return the
closure's result; after `with_mut` with mutator `m` returns normally, a
subsequent observation of the cell sees `m` applied to `v`. -/
theorem cellExt_with_with_mut_correct (T R : Type) (v dflt : T)
    (g : T → R) (m : T → R × T) :
    Cell.take dflt (Cell.new v) = (v, Cell.new dflt)
    ∧ @CellExt.with' T R Unit dflt (pureRef g) (Cell.new v)
        = (Cell.new v, Except.ok (g v))
    ∧ @CellExt.with_mut T R Unit dflt (pureMut m) (Cell.new v)
        = (Cell.new (m v).2, Except.ok (m v).1)
    ∧ Cell.get (@CellExt.with_mut T R Unit dflt (pureMut m)
        (Cell.new v)).1 = (m v).2 :=
  ⟨rfl, rfl, rfl, rfl⟩

/-- C2: For every default-constructible type `T`, if the closure passed
to `CellExt::with` or `CellExt::with_mut` panics, the write-back is
skipped and the slot is left holding the default-constructed
placeholder; any subsequent successful `get`/`with` call observes the
default, not the pre-call value. -/
theorem cellExt_panic_leaves_default (T R E : Type) (v dflt : T)
    (p : T → E) (clone : T → T) (g : T → R) :
    @CellExt.with_mut T R E dflt (panicMut p) (Cell.new v)
        = (Cell.new dflt, Except.error (p v))
    ∧ @CellExt.with' T R E dflt (panicRef p) (Cell.new v)
        = (Cell.new dflt, Except.error (p v))
    ∧ @CellExt.get T E dflt clone
        (@CellExt.with_mut T R E dflt (panicMut p) (Cell.new v)).1
        = (Cell.new dflt, Except.ok (clone dflt))
    ∧ @CellExt.with' T R E dflt (pureRef g)
        (@CellExt.with_mut T R E dflt (panicMut p) (Cell.new v)).1
        = (Cell.new dflt, Except.ok (g dflt)) :=
  ⟨rfl, rfl, rfl, rfl⟩

/-- C3: During a closure supplied to `CellExt::with` or
`CellExt::with_mut` the slot holds the default placeholder and the real
value is reachable only through the closure's argument: a reentrant
`get` or `with` performed inside the closure observes the default, while
the checked-out value `v` arrives only via the closure's argument. -/
theorem cellExt_reentrant_observes_default (T R : Type) (v dflt : T)
    (g : T → R) :
    @CellExt.with_mut T (T × T) Unit dflt
        (fun x s => (s, Except.ok ((x, Cell.get s), x))) (Cell.new v)
        = (Cell.new v, Except.ok (v, dflt))
    ∧ @CellExt.with_mut T (Except Unit R) Unit dflt
        (fun x s =>
          let q := @CellExt.with' T R Unit dflt (pureRef g) s
          (q.1, Except.ok (q.2, x))) (Cell.new v)
        = (Cell.new v, Except.ok (Except.ok (g dflt)))
    ∧ @CellExt.with' T (T × T) Unit dflt
        (fun x s => (s, Except.ok (x, Cell.get s))) (Cell.new v)
        = (Cell.new v, Except.ok (v, dflt)) :=
  ⟨rfl, rfl, rfl⟩

/-- C4: For every `Copy` type `T`, value `v` and mutating closure `m`,
the copy-path `with_mut` computes
`let mut v = get(); let r = f(&mut v); set(v); r`: the final cell value
is the closure-mutated duplicate and the returned value is the
closure's result. -/
theorem copy_with_mut_correct (T R : Type) (v : T) (m : T → R × T) :
    @Cell.with_mut T R Unit (pureMut m) (Cell.new v)
        = (Cell.new (m v).2, Except.ok (m v).1)
    ∧ Cell.get (@Cell.with_mut T R Unit (pureMut m) (Cell.new v)).1
        = (m v).2 :=
  ⟨rfl, rfl⟩

/-- C5: For every `Copy` type `T`, if the closure passed to the
copy-path `with_mut` panics, the write-back does not occur and the slot
retains its pre-call value. -/
theorem copy_with_mut_panic_retains (T R E : Type) (v : T) (p : T → E) :
    @Cell.with_mut T R E (panicMut p) (Cell.new v)
        = (Cell.new v, Except.error (p v)) :=
  rfl

/-- C6: Under both capability paths, a call to `with` with a closure
that returns normally and does not itself write the cell leaves the
value observable by a subsequent `get` unchanged; on the copy path the
slot is untouched throughout the call. -/
theorem with_does_not_change_value (T R E : Type) (v dflt : T)
    (f : RefClosure T R E)
    (h : ∀ x s, ∃ r, f x s = (s, Except.ok r)) :
    (Cell.with' f (Cell.new v)).1 = Cell.new v
    ∧ (CellExt.with' dflt f (Cell.new v)).1 = Cell.new v := by
  constructor
  · obtain ⟨r, hr⟩ := h v (Cell.new v)
    show (f (Cell.get (Cell.new v)) (Cell.new v)).1 = Cell.new v
    rw [show Cell.get (Cell.new v) = v from rfl, hr]
  · obtain ⟨r, hr⟩ := h v (Cell.new dflt)
    show (match f v (Cell.new dflt) with
          | (c', Except.error e) => (c', Except.error e)
          | (c', Except.ok r) => (Cell.set c' v, Except.ok r)).1
        = Cell.new v
    rw [hr]
    rfl

/-- Witness for C6 at `T = Nat`, `v = 1`, `dflt = 0`, with the pure
observer closure returning `x + 1`. -/
theorem with_does_not_change_value_witness :
    (Cell.with' (@pureRef Nat Nat Unit (fun x => x + 1))
        (Cell.new 1)).1 = Cell.new 1
    ∧ (CellExt.with' 0 (@pureRef Nat Nat Unit (fun x => x + 1))
        (Cell.new 1)).1 = Cell.new 1 :=
  with_does_not_change_value Nat Nat Unit 1 0
    (pureRef fun x => x + 1) (fun x _s => ⟨x + 1, rfl⟩)

/-- C7: For every `Clone + Default` type `T`, `CellExt::get` is
`with(T::clone)`: it returns the clone of the held value and leaves the
cell holding the same value afterward. -/
theorem cellExt_get_is_with_clone (T E : Type) (v dflt : T)
    (clone : T → T) (c : Cell T) :
    @CellExt.get T E dflt clone c
        = @CellExt.with' T T E dflt (pureRef clone) c
    ∧ (@CellExt.get T E dflt clone c).1 = c
    ∧ (@CellExt.get T E dflt clone c).2 = Except.ok (clone (Cell.get c))
    ∧ @CellExt.get T E dflt clone (Cell.new v)
        = (Cell.new v, Except.ok (clone v)) :=
  ⟨rfl, rfl, rfl, rfl⟩

/-- C8: For all values `v` of a `Copy` type, constructing a cell and
reading it back is the identity: `Cell::new(v).get() == v`. -/
theorem new_get_roundtrip (T : Type) (v : T) :
    Cell.get (Cell.new v) = v :=
  rfl

/-- C9: Converting a bare `core::cell::Cell` holding `v` into `Cell` and
back (in either direction) yields a container holding `v`. -/
theorem conversion_roundtrip (T : Type) (v : T) (s : StdCell T)
    (c : Cell T) :
    Cell.toStd (Cell.fromStd (StdCell.new v)) = StdCell.new v
    ∧ Cell.fromStd (Cell.toStd (Cell.new v)) = Cell.new v
    ∧ Cell.toStd (Cell.fromStd s) = s
    ∧ Cell.fromStd (Cell.toStd c) = c :=
  ⟨rfl, rfl, rfl, rfl⟩

/-- C10: For both `with_mut` variants, any write the closure performs on
the same cell (modelled as an arbitrary reentrant state transformation
`u`) is discarded when the outer call returns normally: the final cell
value is the closure-mutated local value regardless of reentrant sets. -/
theorem with_mut_overrides_reentrant_sets (T R : Type) (v dflt : T)
    (r : R) (m : T → T) (u : Cell T → Cell T) :
    @Cell.with_mut T R Unit
        (fun x s => (u s, Except.ok (r, m x))) (Cell.new v)
        = (Cell.new (m v), Except.ok r)
    ∧ @CellExt.with_mut T R Unit dflt
        (fun x s => (u s, Except.ok (r, m x))) (Cell.new v)
        = (Cell.new (m v), Except.ok r) :=
  ⟨rfl, rfl⟩

end CellRef
